import Mathlib

/-!
Verification of the WarpLink React Native SDK bridge layer
(`src/WarpLink.ts` and its native collaborators), as a shallow
embedding in Lean 4.  JavaScript runtime values crossing the native
bridge are modelled by the inductive `JSValue`; the bridge functions
(`deserializeDeepLink`, `deserializeAttributionResult`,
`mapNativeError`, `configure`, `onDeepLink` / the listener set,
`resolveAndDispatch`, `getInitialDeepLink`) are translated directly
from the TypeScript and Kotlin sources.
-/

namespace WarpLinkSpec

/-- A JavaScript runtime value, as received across the native bridge.
Objects are modelled as association lists with unique keys. -/
inductive JSValue where
  | null
  | undefined
  | bool (b : Bool)
  | num (q : Rat)
  | str (s : String)
  | obj (fields : List (String × JSValue))
deriving Repr, Inhabited

/-- JavaScript truthiness (`Boolean(v)`). -/
def jsTruthy : JSValue → Bool
  | .null => false
  | .undefined => false
  | .bool b => b
  | .num q => q != 0
  | .str s => s != ""
  | .obj _ => true

/-- `v == null` in JavaScript (loose equality): true for `null` and
`undefined` only. -/
def nullish : JSValue → Bool
  | .null => true
  | .undefined => true
  | _ => false

/-- `v != null && typeof v === 'object'` for the modelled values. -/
def isObjectValue : JSValue → Bool
  | .obj _ => true
  | _ => false

/-- `typeof v === 'number'` for the modelled values. -/
def isNumValue : JSValue → Bool
  | .num _ => true
  | _ => false

/-- The JavaScript `String(v)` coercion.  The exact digit string
produced for numbers is abstracted by `toString` on `Rat`. -/
def jsToString : JSValue → String
  | .null => "null"
  | .undefined => "undefined"
  | .bool b => if b then "true" else "false"
  | .num q => toString q
  | .str s => s
  | .obj _ => "[object Object]"

/-- Property lookup `obj[key]` on an object's field list: an absent
key reads as `undefined`. -/
def jsGet (fields : List (String × JSValue)) (key : String) : JSValue :=
  match fields.find? (fun kv => kv.1 == key) with
  | some kv => kv.2
  | none => .undefined

/-- Property lookup on an arbitrary value (non-objects have no
modelled properties). -/
def jsIndex (v : JSValue) (key : String) : JSValue :=
  match v with
  | .obj fields => jsGet fields key
  | _ => .undefined

/-- The nullish-coalescing operator `a ?? b`. -/
def nullishCoalesce (a b : JSValue) : JSValue :=
  if nullish a then b else a

/-- `'deterministic' | 'probabilistic'` from `types.ts`. -/
inductive MatchType where
  | deterministic
  | probabilistic
deriving Repr, DecidableEq

/-- The `WarpLinkDeepLink` interface from `types.ts`. -/
structure WarpLinkDeepLink where
  linkId : String
  destination : String
  deepLinkUrl : Option String
  customParams : List (String × JSValue)
  isDeferred : Bool
  matchType : Option MatchType
  matchConfidence : Option Rat
deriving Repr

/-- The `AttributionResult` interface from `types.ts`. -/
structure AttributionResult where
  linkId : String
  matchType : MatchType
  matchConfidence : Rat
  isDeferred : Bool
  installId : Option String
deriving Repr, DecidableEq

/-- `deserializeMatchType` from `WarpLink.ts`: strict equality against
the two literals, anything else normalizes to the absence marker. -/
def deserializeMatchType : JSValue → Option MatchType
  | .str "deterministic" => some .deterministic
  | .str "probabilistic" => some .probabilistic
  | _ => none

/-- `deserializeDeepLink` from `WarpLink.ts`. -/
def deserializeDeepLink : JSValue → Option WarpLinkDeepLink
  | .obj fields =>
      some {
        linkId := jsToString (nullishCoalesce (jsGet fields "linkId") (.str ""))
        destination :=
          jsToString (nullishCoalesce (jsGet fields "destination") (.str ""))
        deepLinkUrl :=
          if nullish (jsGet fields "deepLinkUrl") then none
          else some (jsToString (jsGet fields "deepLinkUrl"))
        customParams :=
          match jsGet fields "customParams" with
          | .obj kvs => kvs
          | _ => []
        isDeferred := jsTruthy (jsGet fields "isDeferred")
        matchType := deserializeMatchType (jsGet fields "matchType")
        matchConfidence :=
          match jsGet fields "matchConfidence" with
          | .num q => some q
          | _ => none }
  | _ => none

/-- `deserializeAttributionResult` from `WarpLink.ts`. -/
def deserializeAttributionResult : JSValue → Option AttributionResult
  | .obj fields =>
      match deserializeMatchType (jsGet fields "matchType") with
      | none => none
      | some mt =>
          match jsGet fields "matchConfidence" with
          | .num q =>
              some {
                linkId :=
                  jsToString (nullishCoalesce (jsGet fields "linkId") (.str ""))
                matchType := mt
                matchConfidence := q
                isDeferred := jsTruthy (jsGet fields "isDeferred")
                installId :=
                  match jsGet fields "installId" with
                  | .str s => some s
                  | _ => none }
          | _ => none
  | _ => none

/-! Section: Typed error model (`types.ts`) and `mapNativeError` -/

/-- `Object.values(ErrorCodes)` from `types.ts`: the eight known error
codes, in declaration order. -/
def errorCodes : List String :=
  ["E_NOT_CONFIGURED", "E_INVALID_API_KEY_FORMAT", "E_INVALID_API_KEY",
   "E_NETWORK_ERROR", "E_SERVER_ERROR", "E_INVALID_URL",
   "E_LINK_NOT_FOUND", "E_DECODING_ERROR"]

/-- `isErrorCode` from `WarpLink.ts`. -/
def isErrorCode (code : String) : Bool :=
  errorCodes.contains code

/-- The `WarpLinkError` class from `types.ts`: a code (one of the
eight string literals when produced by this layer) and a message. -/
structure WarpLinkError where
  code : String
  message : String
deriving Repr, DecidableEq

/-- A value with which a native call's promise rejects: either an
`Error` instance (a message plus an optional `code` property), or an
arbitrary non-`Error` thrown value. -/
inductive NativeRejection where
  | errObj (message : String) (code : Option String)
  | nonError (v : JSValue)
deriving Repr

/-- `mapNativeError` from `WarpLink.ts`.  The `code &&` test is
JavaScript truthiness on a string, i.e. `code ≠ ""`. -/
def mapNativeError : NativeRejection → WarpLinkError
  | .errObj msg code =>
      let c : String :=
        match code with
        | some c => if c != "" && isErrorCode c then c else "E_SERVER_ERROR"
        | none => "E_SERVER_ERROR"
      ⟨c, msg⟩
  | .nonError v => ⟨"E_SERVER_ERROR", jsToString v⟩

/-! Section: `configure` and the API key pattern -/

/-- The regular expression from `WarpLink.ts`,
`/^wl_(live|test)_[a-zA-Z0-9]\x7b32\x7d$/`, as a character class of the
suffix alphabet. -/
def isAsciiAlphanum (c : Char) : Bool :=
  (decide ('a' ≤ c) && decide (c ≤ 'z'))
    || (decide ('A' ≤ c) && decide (c ≤ 'Z'))
    || (decide ('0' ≤ c) && decide (c ≤ '9'))

/-- `API_KEY_PATTERN.test` from `WarpLink.ts`: the eight-character
prefix is `wl_live_` or `wl_test_`, the whole key is forty characters
long, and everything after the prefix is ASCII alphanumeric. -/
def apiKeyPatternTest (s : String) : Bool :=
  (s.data.take 8 == "wl_live_".data || s.data.take 8 == "wl_test_".data)
    && s.data.length == 40
    && (s.data.drop 8).all isAsciiAlphanum

/-- The `WarpLinkConfig` interface from `types.ts`. -/
structure WarpLinkConfig where
  apiKey : String
  apiEndpoint : Option String := none
  debugLogging : Option Bool := none
  matchWindowHours : Option Rat := none
deriving Repr

/-- Calls made into the native module (the external Resolver boundary)
and to the native event emitter. -/
inductive NativeCall where
  | configureCall (config : List (String × JSValue))
  | handleDeepLinkCall (url : String)
  | addNativeListener
  | removeNativeListener
deriving Repr

/-- `WarpLink.configure` from `WarpLink.ts`: the synchronous part.
The first component is the synchronously thrown error, if any; the
second lists the native calls issued.  The asynchronous settlement of
the fire-and-forget `NativeWarpLink.configure` call is not observable
through this path. -/
def configure (options : WarpLinkConfig) : Option WarpLinkError × List NativeCall :=
  if options.apiKey == "" || !apiKeyPatternTest options.apiKey then
    (some ⟨"E_INVALID_API_KEY_FORMAT",
      "Invalid API key format. Expected: wl_live_xxx or wl_test_xxx (32 alphanumeric characters after prefix)"⟩,
     [])
  else
    let config : List (String × JSValue) :=
      [("apiKey", JSValue.str options.apiKey)]
        ++ (match options.apiEndpoint with
            | some e => [("apiEndpoint", JSValue.str e)]
            | none => [])
        ++ (match options.debugLogging with
            | some b => [("debugLogging", JSValue.bool b)]
            | none => [])
        ++ (match options.matchWindowHours with
            | some q => [("matchWindowHours", JSValue.num q)]
            | none => [])
    (none, [NativeCall.configureCall config])

/-! Section: The listener set (a JavaScript `Set`) and fan-out

`WarpLink.ts` keeps the active listeners in a module-level
`Set<DeepLinkListener>`.  Per the ECMAScript specification a `Set`
keeps its elements in insertion order, `delete` empties the slot
without shifting later elements, and a live iterator visits the
non-empty slots left to right, seeing concurrent deletions and
appends.  Listeners are identified by naturals. -/

structure JSSet where
  entries : List (Option Nat)
deriving Repr, DecidableEq

def JSSet.empty : JSSet := ⟨[]⟩

def JSSet.memB (s : JSSet) (x : Nat) : Bool :=
  s.entries.contains (some x)

/-- `Set.prototype.add`: a no-op on a present element, otherwise an
append. -/
def JSSet.add (s : JSSet) (x : Nat) : JSSet :=
  if s.memB x then s else ⟨s.entries ++ [some x]⟩

/-- `Set.prototype.delete`: empties the element's slot. -/
def JSSet.del (s : JSSet) (x : Nat) : JSSet :=
  ⟨s.entries.map (fun e => if e = some x then none else e)⟩

/-- `Set.prototype.size`: the number of non-empty slots. -/
def JSSet.size (s : JSSet) : Nat :=
  (s.entries.filterMap id).length

/-- Well-formedness: no element occupies two slots.  This holds for
every set built by `add` / `del` from the empty set. -/
def JSSet.WF (s : JSSet) : Prop :=
  (s.entries.filterMap id).Nodup

/-- What a listener callback does, re-entrantly, to the multiplexer
when invoked: a sequence of `onDeepLink` registrations and
unsubscriptions. -/
inductive ListenerAction where
  | subscribeAct (l : Nat)
  | unsubscribeAct (l : Nat)
deriving Repr, DecidableEq

/-- The effect of a re-entrant `onDeepLink` / unsubscribe call on the
listener set (the set-mutation part of those functions). -/
def applyAction (s : JSSet) : ListenerAction → JSSet
  | .subscribeAct l => s.add l
  | .unsubscribeAct l => s.del l

def applyActions (s : JSSet) (acts : List ListenerAction) : JSSet :=
  acts.foldl applyAction s

/-- Result of iterating `for (const listener of listeners)` during
fan-out: the final set, the listeners invoked in order, and whether
the iteration ran to completion within the supplied fuel. -/
structure FanoutResult where
  set : JSSet
  delivered : List Nat
  finished : Bool
deriving Repr, DecidableEq

/-- The live `Set` iteration of `resolveAndDispatch`'s dispatch loop:
the cursor walks the slot list left to right; an invoked listener's
re-entrant actions mutate the set before the cursor advances.  `fuel`
bounds the number of cursor steps (re-entrant `add`s can extend the
slot list, and in the worst case prevent termination, so the recursion
is fuel-indexed). -/
def fanoutAux (beh : Nat → List ListenerAction) :
    Nat → Nat → JSSet → List Nat → FanoutResult
  | 0, _, s, acc => ⟨s, acc.reverse, false⟩
  | fuel + 1, i, s, acc =>
      match s.entries[i]? with
      | none => ⟨s, acc.reverse, true⟩
      | some none => fanoutAux beh fuel (i + 1) s acc
      | some (some l) =>
          fanoutAux beh fuel (i + 1) (applyActions s (beh l)) (l :: acc)

def fanout (beh : Nat → List ListenerAction) (fuel : Nat) (s : JSSet) :
    FanoutResult :=
  fanoutAux beh fuel 0 s []

/-- A listener that performs no re-entrant mutation. -/
def passiveBeh : Nat → List ListenerAction := fun _ => []

/-- The `DeepLinkEvent` tagged union from `types.ts`. -/
inductive DeepLinkEvent where
  | link (deepLink : WarpLinkDeepLink)
  | error (e : WarpLinkError)
deriving Repr

/-- Result of `resolveAndDispatch`: the listener set afterwards, the
listeners invoked, the single event value fanned out (none when the
resolution produced no event), and iteration completion. -/
structure DispatchResult where
  set : JSSet
  delivered : List Nat
  event : Option DeepLinkEvent
  finished : Bool
deriving Repr

/-- `resolveAndDispatch` from `WarpLink.ts`, with the awaited
settlement of `NativeWarpLink.handleDeepLink url` given by
`resolver url`.  On fulfilment the raw payload is deserialized; a null
result suppresses dispatch entirely.  On rejection the mapped typed
error is fanned out. -/
def resolveAndDispatch (resolver : String → Except NativeRejection JSValue)
    (beh : Nat → List ListenerAction) (fuel : Nat) (s : JSSet) (url : String) :
    DispatchResult :=
  match resolver url with
  | .ok raw =>
      match deserializeDeepLink raw with
      | some dl =>
          let r := fanout beh fuel s
          ⟨r.set, r.delivered, some (.link dl), r.finished⟩
      | none => ⟨s, [], none, true⟩
  | .error err =>
      let r := fanout beh fuel s
      ⟨r.set, r.delivered, some (.error (mapNativeError err)), r.finished⟩

/-- The event a settled resolution should fan out, per the spec's
Event Multiplexer contract: the resolved link on fulfilment (nothing
when normalization yields null), the mapped typed error on
rejection. -/
def eventOfSettlement : Except NativeRejection JSValue → Option DeepLinkEvent
  | .ok raw => (deserializeDeepLink raw).map .link
  | .error err => some (.error (mapNativeError err))

/-! Section: The multiplexer's subscription state machine -/

/-- The module-level mutable state of `WarpLink.ts`: the active
listener set and whether the single underlying native subscription is
present (`nativeSubscription !== null`). -/
structure MuxState where
  listeners : JSSet
  nativeSub : Bool
deriving Repr, DecidableEq

/-- Module load time: no listeners, no native subscription. -/
def initialMuxState : MuxState := ⟨JSSet.empty, false⟩

/-- Operations driving the multiplexer: `onDeepLink(l)`, the
unsubscribe closure returned for `l`, and an underlying native push
event. -/
inductive MuxOp where
  | subscribeOp (l : Nat)
  | unsubscribeOp (l : Nat)
  | pushEventOp (url : String)
deriving Repr

/-- One step of the multiplexer: `onDeepLink` (which lazily creates
the native subscription, then adds the listener), the returned
unsubscribe closure (which removes the listener and tears the native
subscription down when the set empties), and the arrival of a native
push event (which reaches `handleNativeDeepLinkEvent`, hence issues a
resolution call, only while the native subscription exists). -/
def muxStep (st : MuxState) : MuxOp → MuxState × List NativeCall
  | .subscribeOp l =>
      let calls := if st.nativeSub then [] else [NativeCall.addNativeListener]
      (⟨st.listeners.add l, true⟩, calls)
  | .unsubscribeOp l =>
      let s2 := st.listeners.del l
      if s2.size == 0 && st.nativeSub then
        (⟨s2, false⟩, [NativeCall.removeNativeListener])
      else
        (⟨s2, st.nativeSub⟩, [])
  | .pushEventOp url =>
      if st.nativeSub then (st, [NativeCall.handleDeepLinkCall url])
      else (st, [])

def muxRun : MuxState → List MuxOp → MuxState × List NativeCall
  | st, [] => (st, [])
  | st, op :: ops =>
      let r := muxStep st op
      let r2 := muxRun r.1 ops
      (r2.1, r.2 ++ r2.2)

def countAddCalls (calls : List NativeCall) : Nat :=
  calls.countP (fun c => match c with | .addNativeListener => true | _ => false)

def countRemoveCalls (calls : List NativeCall) : Nat :=
  calls.countP (fun c => match c with | .removeNativeListener => true | _ => false)

/-! Section: Cold-start consumption (`getInitialDeepLink`) -/

/-- The native `getInitialURL` method (Kotlin `WarpLinkModule`): reads
the captured cold-start URL and destructively clears it. -/
def getInitialURLNative (initialURL : Option String) :
    Option String × Option String :=
  (initialURL, none)

/-- `WarpLink.handleDeepLink` from `WarpLink.ts`: resolve through the
native module, deserialize on fulfilment, map the error on
rejection. -/
def handleDeepLinkOp (resolver : String → Except NativeRejection JSValue)
    (url : String) : Except WarpLinkError (Option WarpLinkDeepLink) :=
  match resolver url with
  | .ok raw => .ok (deserializeDeepLink raw)
  | .error err => .error (mapNativeError err)

/-- `WarpLink.getInitialDeepLink` from `WarpLink.ts`, over the native
cold-start slot: consume the captured URL; return null when none was
captured, otherwise resolve the URL through `handleDeepLink`.  The
second component is the native slot afterwards.  (The surrounding
`catch` re-maps a thrown `WarpLinkError`, which `mapNativeError`
preserves value-for-value, so it is omitted.) -/
def getInitialDeepLink (resolver : String → Except NativeRejection JSValue)
    (initialURL : Option String) :
    Except WarpLinkError (Option WarpLinkDeepLink) × Option String :=
  let r := getInitialURLNative initialURL
  match r.1 with
  | none => (.ok none, r.2)
  | some u => (handleDeepLinkOp resolver u, r.2)

/-! Section: Spec-side predicates and concrete scenario data -/

/-- The API key format as the spec words it: `wl_` followed by `live`
or `test`, an underscore, and exactly 32 characters from
`[a-zA-Z0-9]`. -/
def specApiKeyFormat (s : String) : Prop :=
  ∃ seg suf : List Char,
    s.data = "wl_".data ++ seg ++ '_' :: suf
      ∧ (seg = "live".data ∨ seg = "test".data)
      ∧ suf.length = 32
      ∧ ∀ c ∈ suf, isAsciiAlphanum c = true

/-- Every action in the list is an unsubscription. -/
def removeOnlyActs (acts : List ListenerAction) : Prop :=
  ∀ a ∈ acts, ∃ x, a = ListenerAction.unsubscribeAct x

/-- Every listener's re-entrant behaviour only unsubscribes. -/
def removeOnly (beh : Nat → List ListenerAction) : Prop :=
  ∀ m, removeOnlyActs (beh m)

/-- The action list never unsubscribes listener `l`. -/
def avoidsListener (acts : List ListenerAction) (l : Nat) : Prop :=
  ListenerAction.unsubscribeAct l ∉ acts

/-- No listener's re-entrant behaviour unsubscribes `l`. -/
def neverRemoves (beh : Nat → List ListenerAction) (l : Nat) : Prop :=
  ∀ m, avoidsListener (beh m) l

/-- A two-listener set: listener 0 registered first, then listener 1. -/
def cexSet : JSSet := ⟨[some 0, some 1]⟩

/-- Listener 0 unsubscribes listener 1 from within its callback;
listener 1 does nothing. -/
def cexBeh : Nat → List ListenerAction :=
  fun l => if l == 0 then [ListenerAction.unsubscribeAct 1] else []

/-- A resolver whose call settles by rejecting with a network error. -/
def cexResolver : String → Except NativeRejection JSValue :=
  fun _ => .error (.errObj "x" (some "E_NETWORK_ERROR"))

/-- A fully-determined raw attribution payload. -/
def attrSample : JSValue :=
  .obj [("matchType", .str "deterministic"), ("matchConfidence", .num 1)]

end WarpLinkSpec

namespace WarpLinkSpec

/-! Theorems. -/

/-- C4. For every value with which a native resolver call rejects,
`mapNativeError` returns a typed error: for an error object the
message is preserved verbatim and the kind is the carried `code` when
that code is one of the eight known kinds, `E_SERVER_ERROR` otherwise
(also when no code is carried, and for non-error rejection values);
`{ message: "x", code: "E_NETWORK_ERROR" }` maps to a network error
with message `"x"`; the result always carries a known kind. -/
theorem mapNativeError_faithful :
    (∀ msg code, (mapNativeError (.errObj msg code)).message = msg)
    ∧ (∀ msg c, isErrorCode c = true →
        mapNativeError (.errObj msg (some c)) = ⟨c, msg⟩)
    ∧ (∀ msg c, isErrorCode c = false →
        mapNativeError (.errObj msg (some c)) = ⟨"E_SERVER_ERROR", msg⟩)
    ∧ (∀ msg, mapNativeError (.errObj msg none) = ⟨"E_SERVER_ERROR", msg⟩)
    ∧ mapNativeError (.errObj "x" (some "E_NETWORK_ERROR"))
        = ⟨"E_NETWORK_ERROR", "x"⟩
    ∧ (∀ v, mapNativeError (.nonError v) = ⟨"E_SERVER_ERROR", jsToString v⟩)
    ∧ (∀ e, isErrorCode (mapNativeError e).code = true) := by
  refine ⟨fun msg code => rfl, ?_, ?_, fun msg => rfl, by decide,
    fun v => rfl, ?_⟩
  · intro msg c h
    by_cases hc : c = ""
    · subst hc; exact absurd h (by decide)
    · have hne : (c != "") = true := by simpa using hc
      simp [mapNativeError, hne, h]
  · intro msg c h
    simp [mapNativeError, h]
  · intro e
    cases e with
    | errObj msg code =>
        cases code with
        | none => exact (by decide : isErrorCode "E_SERVER_ERROR" = true)
        | some c =>
            by_cases hb : (c != "" && isErrorCode c) = true
            · simp [mapNativeError, hb]
              rw [Bool.and_eq_true] at hb
              exact hb.2
            · simp [mapNativeError, Bool.eq_false_iff.mpr hb]
              decide
    | nonError v => exact (by decide : isErrorCode "E_SERVER_ERROR" = true)

/-- Witness for C4 at concrete inputs: a recognized code is preserved
with its message, an unrecognized one maps to the server-error
kind. -/
theorem mapNativeError_faithful_witness :
    mapNativeError (.errObj "m" (some "E_DECODING_ERROR"))
        = ⟨"E_DECODING_ERROR", "m"⟩
    ∧ mapNativeError (.errObj "n" (some "E_BOGUS"))
        = ⟨"E_SERVER_ERROR", "n"⟩ :=
  ⟨mapNativeError_faithful.2.1 "m" "E_DECODING_ERROR" (by decide),
   mapNativeError_faithful.2.2.1 "n" "E_BOGUS" (by decide)⟩

/-- C5 counterexample. An object payload whose `linkId` is present
but malformed (a boolean) is string-coerced to `"true"` by
`deserializeDeepLink`, not defaulted to the empty string, refuting the
claim that defaults are applied to malformed `linkId` fields. -/
theorem normalizeLink_malformed_linkId_coerced :
    (deserializeDeepLink (JSValue.obj [("linkId", JSValue.bool true)])).map
        (fun r => r.linkId) = some "true"
    ∧ "true" ≠ "" :=
  ⟨rfl, by decide⟩

/-- C5 amended. `deserializeDeepLink` never fails and returns
null exactly when the input is not an object; every object input
yields a structurally complete record where a missing (nullish)
`linkId`/`destination` defaults to the empty string (a present
non-nullish value is string-coerced), a missing `deepLinkUrl` defaults
to null, a missing, null or non-object `customParams` defaults to the
empty mapping, an unrecognized `matchType` and a non-numeric
`matchConfidence` normalize to the null absence marker. -/
theorem normalizeLink_total_defaults (v : JSValue) :
    ((deserializeDeepLink v).isSome = isObjectValue v)
    ∧ (∀ r, deserializeDeepLink v = some r →
        (nullish (jsIndex v "linkId") = true → r.linkId = "")
        ∧ (nullish (jsIndex v "linkId") = false →
            r.linkId = jsToString (jsIndex v "linkId"))
        ∧ (nullish (jsIndex v "destination") = true → r.destination = "")
        ∧ (nullish (jsIndex v "deepLinkUrl") = true → r.deepLinkUrl = none)
        ∧ ((∀ kvs, jsIndex v "customParams" ≠ JSValue.obj kvs) →
            r.customParams = [])
        ∧ (deserializeMatchType (jsIndex v "matchType") = none →
            r.matchType = none)
        ∧ (isNumValue (jsIndex v "matchConfidence") = false →
            r.matchConfidence = none)) := by
  cases v with
  | null => exact ⟨rfl, fun r hr => absurd hr (by simp [deserializeDeepLink])⟩
  | undefined =>
      exact ⟨rfl, fun r hr => absurd hr (by simp [deserializeDeepLink])⟩
  | bool b => exact ⟨rfl, fun r hr => absurd hr (by simp [deserializeDeepLink])⟩
  | num q => exact ⟨rfl, fun r hr => absurd hr (by simp [deserializeDeepLink])⟩
  | str s => exact ⟨rfl, fun r hr => absurd hr (by simp [deserializeDeepLink])⟩
  | obj fields =>
      refine ⟨rfl, ?_⟩
      intro r hr
      have hr2 := Option.some.inj hr.symm
      subst hr2
      refine ⟨?_, ?_, ?_, ?_, ?_, ?_, ?_⟩
      · intro h; simp only [jsIndex] at h
        simp [nullishCoalesce, h, jsToString]
      · intro h; simp only [jsIndex] at h ⊢
        simp [nullishCoalesce, h]
      · intro h; simp only [jsIndex] at h
        simp [nullishCoalesce, h, jsToString]
      · intro h; simp only [jsIndex] at h
        simp [h]
      · intro h
        simp only [jsIndex] at h
        cases hx : jsGet fields "customParams"
        case obj kvs => exact absurd hx (h kvs)
        all_goals simp [hx]
      · intro h; simp only [jsIndex] at h; simp [h]
      · intro h
        simp only [jsIndex] at h
        cases hx : jsGet fields "matchConfidence" <;>
          simp [isNumValue, hx] at h ⊢

/-- Witness for C5 at the empty object: deserialization succeeds and
the missing fields take their defaults. -/
theorem normalizeLink_total_defaults_witness :
    ∃ r, deserializeDeepLink (JSValue.obj []) = some r
      ∧ r.linkId = "" ∧ r.matchConfidence = none := by
  have h := normalizeLink_total_defaults (JSValue.obj [])
  have hsome : deserializeDeepLink (JSValue.obj [])
      = some ⟨"", "", none, [], false, none, none⟩ := rfl
  exact ⟨_, hsome, (h.2 _ hsome).1 rfl, (h.2 _ hsome).2.2.2.2.2.2 rfl⟩

/-- C6. `deserializeAttributionResult` returns null exactly when
the input is not an object, or its `matchType` does not normalize to
one of the two literals, or its `matchConfidence` is not numeric; any
non-null result carries the normalized `matchType` and the numeric
`matchConfidence`, never a partially populated record. -/
theorem normalizeAttribution_strict (v : JSValue) :
    ((deserializeAttributionResult v).isSome
      = (isObjectValue v
          && (deserializeMatchType (jsIndex v "matchType")).isSome
          && isNumValue (jsIndex v "matchConfidence")))
    ∧ (∀ r, deserializeAttributionResult v = some r →
        deserializeMatchType (jsIndex v "matchType") = some r.matchType
        ∧ jsIndex v "matchConfidence" = JSValue.num r.matchConfidence) := by
  cases v with
  | null =>
      exact ⟨rfl, fun r hr => absurd hr (by simp [deserializeAttributionResult])⟩
  | undefined =>
      exact ⟨rfl, fun r hr => absurd hr (by simp [deserializeAttributionResult])⟩
  | bool b =>
      exact ⟨rfl, fun r hr => absurd hr (by simp [deserializeAttributionResult])⟩
  | num q =>
      exact ⟨rfl, fun r hr => absurd hr (by simp [deserializeAttributionResult])⟩
  | str s =>
      exact ⟨rfl, fun r hr => absurd hr (by simp [deserializeAttributionResult])⟩
  | obj fields =>
      constructor
      · simp only [deserializeAttributionResult, isObjectValue, jsIndex,
          Bool.true_and]
        cases hmt : deserializeMatchType (jsGet fields "matchType") with
        | none => simp
        | some mt =>
            cases hx : jsGet fields "matchConfidence" <;>
              simp [isNumValue, hx]
      · intro r hr
        simp only [deserializeAttributionResult, jsIndex] at hr ⊢
        cases hmt : deserializeMatchType (jsGet fields "matchType") with
        | none => rw [hmt] at hr; exact absurd hr (by simp)
        | some mt =>
            rw [hmt] at hr
            cases hx : jsGet fields "matchConfidence" <;> rw [hx] at hr
            case num q =>
              simp only [Option.some.injEq] at hr
              subst hr
              exact ⟨rfl, rfl⟩
            all_goals exact absurd hr (by simp)

/-- Witness for C6 at a fully-determined payload: the result record
carries exactly the normalized `matchType` and numeric confidence. -/
theorem normalizeAttribution_strict_witness :
    deserializeMatchType (jsIndex attrSample "matchType")
        = some MatchType.deterministic
    ∧ jsIndex attrSample "matchConfidence" = JSValue.num 1 :=
  (normalizeAttribution_strict attrSample).2
    ⟨"", .deterministic, 1, false, none⟩ rfl

/-- C7. A raw link payload whose `matchConfidence` field is the
number `0.0` deserializes to a record whose `matchConfidence` is
exactly `0.0`, not the null absence marker. -/
theorem zero_confidence_preserved (fields : List (String × JSValue))
    (h : jsGet fields "matchConfidence" = JSValue.num 0) :
    (deserializeDeepLink (JSValue.obj fields)).map (fun r => r.matchConfidence)
      = some (some 0)
    ∧ (some (0 : Rat) : Option Rat) ≠ none := by
  refine ⟨?_, by decide⟩
  simp [deserializeDeepLink, h]

/-- Witness for C7 at a payload carrying `matchConfidence: 0.0`. -/
theorem zero_confidence_preserved_witness :
    (deserializeDeepLink (JSValue.obj [("matchConfidence", JSValue.num 0)])).map
        (fun r => r.matchConfidence) = some (some 0) :=
  (zero_confidence_preserved [("matchConfidence", JSValue.num 0)] rfl).1

/-- C10. When a push resolution settles successfully with a value
that normalizes to null, `resolveAndDispatch` delivers no event to any
listener and leaves the listener set unchanged. -/
theorem no_match_resolution_silent
    (resolver : String → Except NativeRejection JSValue)
    (beh : Nat → List ListenerAction) (fuel : Nat) (s : JSSet) (url : String)
    (raw : JSValue) (hres : resolver url = .ok raw)
    (hnull : deserializeDeepLink raw = none) :
    resolveAndDispatch resolver beh fuel s url = ⟨s, [], none, true⟩ := by
  simp [resolveAndDispatch, hres, hnull]

/-- Witness for C10: a resolver fulfilling with `null` (no match)
produces no deliveries over a one-listener set. -/
theorem no_match_resolution_silent_witness :
    resolveAndDispatch (fun _ => Except.ok JSValue.null) passiveBeh 2
        ⟨[some 0]⟩ "warplink://u" = ⟨⟨[some 0]⟩, [], none, true⟩ :=
  no_match_resolution_silent _ passiveBeh 2 ⟨[some 0]⟩ "warplink://u"
    JSValue.null rfl rfl

/-- The regex test agrees with the spec's wording of the key format:
`wl_`, then `live` or `test`, then an underscore, then exactly 32
ASCII alphanumerics. -/
theorem apiKeyPatternTest_iff (s : String) :
    apiKeyPatternTest s = true ↔ specApiKeyFormat s := by
  constructor
  · intro h
    unfold apiKeyPatternTest at h
    rw [Bool.and_eq_true, Bool.and_eq_true, Bool.or_eq_true] at h
    obtain ⟨⟨hpre, hlen⟩, halnum⟩ := h
    have hlen40 : s.data.length = 40 := by simpa using hlen
    have hall : ∀ c ∈ s.data.drop 8, isAsciiAlphanum c = true :=
      List.all_eq_true.mp halnum
    have hsplit := List.take_append_drop 8 s.data
    have hsuflen : (s.data.drop 8).length = 32 := by
      rw [List.length_drop]; omega
    cases hpre with
    | inl hp =>
        have hp2 : s.data.take 8 = "wl_live_".data := by simpa using hp
        refine ⟨"live".data, s.data.drop 8, ?_, Or.inl rfl, hsuflen, hall⟩
        calc s.data = s.data.take 8 ++ s.data.drop 8 := hsplit.symm
          _ = "wl_live_".data ++ s.data.drop 8 := by rw [hp2]
          _ = "wl_".data ++ "live".data ++ '_' :: s.data.drop 8 := rfl
    | inr hp =>
        have hp2 : s.data.take 8 = "wl_test_".data := by simpa using hp
        refine ⟨"test".data, s.data.drop 8, ?_, Or.inr rfl, hsuflen, hall⟩
        calc s.data = s.data.take 8 ++ s.data.drop 8 := hsplit.symm
          _ = "wl_test_".data ++ s.data.drop 8 := by rw [hp2]
          _ = "wl_".data ++ "test".data ++ '_' :: s.data.drop 8 := rfl
  · rintro ⟨seg, suf, hdec, hseg, hlen32, halnum⟩
    unfold apiKeyPatternTest
    cases hseg with
    | inl h =>
        subst h
        have hdec2 : s.data = "wl_live_".data ++ suf := hdec
        have htake : s.data.take 8 = "wl_live_".data := by
          rw [hdec2]; exact List.take_left' rfl
        have hdrop : s.data.drop 8 = suf := by
          rw [hdec2]; exact List.drop_left' rfl
        have hlen : s.data.length = 40 := by
          rw [hdec2, List.length_append, hlen32]; decide
        rw [Bool.and_eq_true, Bool.and_eq_true, Bool.or_eq_true]
        exact ⟨⟨Or.inl (by simp [htake]), by simp [hlen]⟩,
          List.all_eq_true.mpr (by rw [hdrop]; exact halnum)⟩
    | inr h =>
        subst h
        have hdec2 : s.data = "wl_test_".data ++ suf := hdec
        have htake : s.data.take 8 = "wl_test_".data := by
          rw [hdec2]; exact List.take_left' rfl
        have hdrop : s.data.drop 8 = suf := by
          rw [hdec2]; exact List.drop_left' rfl
        have hlen : s.data.length = 40 := by
          rw [hdec2, List.length_append, hlen32]; decide
        rw [Bool.and_eq_true, Bool.and_eq_true, Bool.or_eq_true]
        exact ⟨⟨Or.inr (by simp [htake]), by simp [hlen]⟩,
          List.all_eq_true.mpr (by rw [hdrop]; exact halnum)⟩

/-- C3. `configure` throws synchronously, with kind
`E_INVALID_API_KEY_FORMAT` and before any native call is issued,
exactly when the supplied key does not match `wl_(live|test)_` plus 32
alphanumerics; a matching key returns with no thrown error, issuing
the single native configure call. -/
theorem configure_sync_key_validation (options : WarpLinkConfig) :
    ((configure options).1 = none ↔ specApiKeyFormat options.apiKey)
    ∧ (∀ e, (configure options).1 = some e →
        e.code = "E_INVALID_API_KEY_FORMAT" ∧ (configure options).2 = [])
    ∧ ((configure options).1 = none →
        ∃ cfg, (configure options).2 = [NativeCall.configureCall cfg]) := by
  by_cases hp : apiKeyPatternTest options.apiKey = true
  · have hne : (options.apiKey == "") = false := by
      rcases hb : options.apiKey == "" with _ | _
      · rfl
      · have : options.apiKey = "" := by simpa using hb
        rw [this] at hp
        exact absurd hp (by decide)
    have hcond : (options.apiKey == "" || !apiKeyPatternTest options.apiKey)
        = false := by simp [hne, hp]
    refine ⟨?_, ?_, ?_⟩
    · simp only [configure, hcond, Bool.false_eq_true, if_false]
      simp [(apiKeyPatternTest_iff _).mp hp]
    · intro e he
      simp only [configure, hcond, Bool.false_eq_true, if_false] at he
      exact absurd he (by simp)
    · intro _
      simp only [configure, hcond, Bool.false_eq_true, if_false]
      exact ⟨_, rfl⟩
  · have hp2 : apiKeyPatternTest options.apiKey = false :=
      Bool.eq_false_iff.mpr hp
    have hcond : (options.apiKey == "" || !apiKeyPatternTest options.apiKey)
        = true := by simp [hp2]
    have hspec : ¬ specApiKeyFormat options.apiKey := fun hs =>
      hp ((apiKeyPatternTest_iff _).mpr hs)
    refine ⟨?_, ?_, ?_⟩
    · simp only [configure, hcond, if_true]
      simp [hspec]
    · intro e he
      simp only [configure, hcond, if_true] at he
      have he2 := Option.some.inj he.symm
      subst he2
      exact ⟨rfl, by simp only [configure, hcond, if_true]⟩
    · intro hnone
      simp only [configure, hcond, if_true] at hnone
      exact absurd hnone (by simp)

/-- Witness for C3: a well-formed live key passes; a key with an
invalid environment segment throws before any native call. -/
theorem configure_sync_key_validation_witness :
    ((configure { apiKey := "wl_live_aaaaaaaaaaaaaaaaaaaaaaaaaaaaaaaa" }).1
        = none)
    ∧ ((configure { apiKey := "wl_prod_aaaaaaaaaaaaaaaaaaaaaaaaaaaaaaaa" }).2
        = []) := by
  constructor
  · exact (configure_sync_key_validation _).1.mpr
      ⟨"live".data, List.replicate 32 'a', by decide, Or.inl rfl,
        by decide, by decide⟩
  · exact ((configure_sync_key_validation _).2.1
      ⟨"E_INVALID_API_KEY_FORMAT",
        "Invalid API key format. Expected: wl_live_xxx or wl_test_xxx (32 alphanumeric characters after prefix)"⟩
      (by decide)).2

/-- `filterMap id` keeps an occupied head slot. -/
theorem filterMap_id_cons_some (m : Nat) (t : List (Option Nat)) :
    (some m :: t).filterMap id = m :: t.filterMap id := rfl

/-- `filterMap id` skips an empty head slot. -/
theorem filterMap_id_cons_none (t : List (Option Nat)) :
    ((none : Option Nat) :: t).filterMap id = t.filterMap id := rfl

/-- Counting occurrences of `some l` among the slots equals counting
`l` in the compacted element list. -/
theorem count_some_filterMap (es : List (Option Nat)) (l : Nat) :
    es.count (some l) = (es.filterMap id).count l := by
  induction es with
  | nil => rfl
  | cons e rest ih =>
      cases e with
      | none => simpa [List.count_cons] using ih
      | some m =>
          by_cases hml : m = l <;>
            simp [List.count_cons, hml, ih, filterMap_id_cons_some]

/-- In a well-formed set, the compacted element list counts each
member exactly once. -/
theorem count_filterMap_of_wf (s : JSSet) (hwf : s.WF) (l : Nat) :
    (s.entries.filterMap id).count l = if s.memB l then 1 else 0 := by
  by_cases hm : s.memB l = true
  · rw [if_pos hm]
    have hmem : l ∈ s.entries.filterMap id := by
      rw [List.mem_filterMap]
      exact ⟨some l, List.elem_iff.mp hm, rfl⟩
    have h1 : (s.entries.filterMap id).count l ≤ 1 :=
      List.nodup_iff_count_le_one.mp hwf l
    have h2 : 0 < (s.entries.filterMap id).count l :=
      List.count_pos_iff.mpr hmem
    omega
  · rw [if_neg hm]
    refine List.count_eq_zero.mpr fun hmem => hm ?_
    obtain ⟨a, ha, hal⟩ := List.mem_filterMap.mp hmem
    have : a = some l := hal
    exact List.elem_iff.mpr (this ▸ ha)

/-- A listener set's slot count for `some l` in a well-formed set. -/
theorem count_entries_of_wf (s : JSSet) (hwf : s.WF) (l : Nat) :
    s.entries.count (some l) = if s.memB l then 1 else 0 :=
  (count_some_filterMap s.entries l).trans (count_filterMap_of_wf s hwf l)

/-- Adding a listener leaves the set non-empty. -/
theorem size_add_ne_zero (s : JSSet) (l : Nat) : (s.add l).size ≠ 0 := by
  unfold JSSet.add
  by_cases hm : s.memB l = true
  · rw [if_pos hm]
    have hmem : l ∈ s.entries.filterMap id := by
      rw [List.mem_filterMap]
      exact ⟨some l, List.elem_iff.mp hm, rfl⟩
    have := List.count_pos_iff.mpr hmem
    have hle := List.count_le_length l (s.entries.filterMap id)
    unfold JSSet.size
    omega
  · rw [if_neg hm]
    unfold JSSet.size
    simp

/-- Deleting from an empty set leaves it empty. -/
theorem size_del_of_zero (s : JSSet) (l : Nat) (h : s.size = 0) :
    (s.del l).size = 0 := by
  unfold JSSet.size at h ⊢
  have hnil : s.entries.filterMap id = [] := List.length_eq_zero.mp h
  have hall := List.filterMap_eq_nil_iff.mp hnil
  unfold JSSet.del
  refine List.length_eq_zero.mpr (List.filterMap_eq_nil_iff.mpr ?_)
  intro a ha
  obtain ⟨b, hb, hba⟩ := List.mem_map.mp ha
  have hbnone : b = none := by simpa using hall b hb
  subst hbnone
  have hanone : a = none := by simpa using hba.symm
  simp [hanone]

/-- One multiplexer step preserves the subscription invariant and the
add/remove call balance. -/
theorem muxStep_preserves (st : MuxState) (op : MuxOp)
    (h : st.nativeSub = true ↔ st.listeners.size ≠ 0) :
    ((muxStep st op).1.nativeSub = true ↔ (muxStep st op).1.listeners.size ≠ 0)
    ∧ countAddCalls (muxStep st op).2 + (if st.nativeSub then 1 else 0)
        = countRemoveCalls (muxStep st op).2
          + (if (muxStep st op).1.nativeSub then 1 else 0) := by
  cases op with
  | subscribeOp l =>
      constructor
      · simpa [muxStep] using size_add_ne_zero st.listeners l
      · cases hns : st.nativeSub <;>
          simp [muxStep, hns, countAddCalls, countRemoveCalls]
  | unsubscribeOp l =>
      by_cases hc : ((st.listeners.del l).size == 0 && st.nativeSub) = true
      · rw [Bool.and_eq_true] at hc
        have hz : (st.listeners.del l).size = 0 := by simpa using hc.1
        constructor
        · simp [muxStep, Bool.and_eq_true, hc.1, hc.2, hz]
        · simp [muxStep, Bool.and_eq_true, hc.1, hc.2, hz, hc.2,
            countAddCalls, countRemoveCalls]
      · have hcf : ((st.listeners.del l).size == 0 && st.nativeSub) = false :=
          Bool.eq_false_iff.mpr hc
        constructor
        · simp only [muxStep, hcf, Bool.false_eq_true, if_false]
          constructor
          · intro hb hz
            rw [hb] at hcf
            simp [hz] at hcf
          · intro hnz
            rcases hb : st.nativeSub with _ | _
            · have hz : st.listeners.size = 0 := by
                by_contra hsz
                exact absurd (h.mpr hsz) (by simp [hb])
              exact absurd (size_del_of_zero st.listeners l hz) hnz
            · rfl
        · simp [muxStep, hcf, countAddCalls, countRemoveCalls]
  | pushEventOp url =>
      cases hns : st.nativeSub <;>
        simp [muxStep, hns, countAddCalls, countRemoveCalls, h.symm,
          ← h, hns]

/-- Running any operation sequence preserves the invariant and the
call balance. -/
theorem muxRun_preserves (ops : List MuxOp) :
    ∀ st : MuxState, (st.nativeSub = true ↔ st.listeners.size ≠ 0) →
      ((muxRun st ops).1.nativeSub = true
          ↔ (muxRun st ops).1.listeners.size ≠ 0)
      ∧ countAddCalls (muxRun st ops).2 + (if st.nativeSub then 1 else 0)
          = countRemoveCalls (muxRun st ops).2
            + (if (muxRun st ops).1.nativeSub then 1 else 0) := by
  induction ops with
  | nil =>
      intro st h
      exact ⟨h, rfl⟩
  | cons op rest ih =>
      intro st h
      obtain ⟨hs1, hs2⟩ := muxStep_preserves st op h
      obtain ⟨hr1, hr2⟩ := ih (muxStep st op).1 hs1
      have hunfold : muxRun st (op :: rest)
          = ((muxRun (muxStep st op).1 rest).1,
             (muxStep st op).2 ++ (muxRun (muxStep st op).1 rest).2) := rfl
      rw [hunfold]
      refine ⟨hr1, ?_⟩
      simp only [countAddCalls, countRemoveCalls, List.countP_append] at hs2 hr2 ⊢
      omega

/-- C8. Over every operation sequence from the initial state, the
underlying native subscription exists precisely when the active
listener set is non-empty, the native event listener is never
double-registered (adds exceed removals by exactly the live
subscription), and in a state with zero listeners a push event issues
no resolution call. -/
theorem subscription_iff_listeners (ops : List MuxOp) :
    (((muxRun initialMuxState ops).1.nativeSub = true)
        ↔ (muxRun initialMuxState ops).1.listeners.size ≠ 0)
    ∧ (countAddCalls (muxRun initialMuxState ops).2
        = countRemoveCalls (muxRun initialMuxState ops).2
          + (if (muxRun initialMuxState ops).1.nativeSub then 1 else 0))
    ∧ ((muxRun initialMuxState ops).1.listeners.size = 0 →
        ∀ url, (muxStep (muxRun initialMuxState ops).1 (.pushEventOp url)).2
          = []) := by
  obtain ⟨h1, h2⟩ := muxRun_preserves ops initialMuxState (by simp [initialMuxState, JSSet.empty, JSSet.size])
  refine ⟨h1, by simpa [initialMuxState] using h2, ?_⟩
  intro hz url
  have hns : (muxRun initialMuxState ops).1.nativeSub = false := by
    rcases hb : (muxRun initialMuxState ops).1.nativeSub with _ | _
    · rfl
    · exact absurd hz (h1.mp hb)
  simp [muxStep, hns]

/-- Emptying one element's slot yields a sublist of the compacted
element list. -/
theorem filterMap_map_del_sublist (es : List (Option Nat)) (x : Nat) :
    List.Sublist
      ((es.map (fun e => if e = some x then none else e)).filterMap id)
      (es.filterMap id) := by
  induction es with
  | nil => simp
  | cons e rest ih =>
      rw [List.map_cons]
      by_cases hex : e = some x
      · rw [if_pos hex]
        subst hex
        rw [filterMap_id_cons_none, filterMap_id_cons_some]
        exact ih.trans (List.sublist_cons_self x _)
      · rw [if_neg hex]
        cases e with
        | none =>
            rw [filterMap_id_cons_none, filterMap_id_cons_none]
            exact ih
        | some m =>
            rw [filterMap_id_cons_some, filterMap_id_cons_some]
            exact ih.cons₂ m

/-- Emptying the slot of an element other than `l` does not change how
often `l` occurs among the occupied slots. -/
theorem filterMap_map_del_count_eq (es : List (Option Nat)) (x l : Nat)
    (hxl : x ≠ l) :
    ((es.map (fun e => if e = some x then none else e)).filterMap id).count l
      = (es.filterMap id).count l := by
  induction es with
  | nil => rfl
  | cons e rest ih =>
      rw [List.map_cons]
      by_cases hex : e = some x
      · rw [if_pos hex]
        subst hex
        rw [filterMap_id_cons_none, filterMap_id_cons_some,
          List.count_cons_of_ne (fun h => hxl h.symm)]
        exact ih
      · rw [if_neg hex]
        cases e with
        | none =>
            rw [filterMap_id_cons_none, filterMap_id_cons_none]
            exact ih
        | some m =>
            rw [filterMap_id_cons_some, filterMap_id_cons_some]
            by_cases hml : m = l
            · subst hml
              rw [List.count_cons_self, List.count_cons_self, ih]
            · rw [List.count_cons_of_ne (fun h => hml h.symm),
                List.count_cons_of_ne (fun h => hml h.symm)]
              exact ih

/-- Dropping a prefix commutes with a deletion. -/
theorem del_entries_drop (s : JSSet) (x i : Nat) :
    (s.del x).entries.drop i
      = (s.entries.drop i).map (fun e => if e = some x then none else e) := by
  show (s.entries.map _).drop i = _
  exact (List.map_drop _ s.entries i).symm

/-- A remove-only re-entrant action sequence preserves the slot-list
length and well-formedness, never increases any listener's occupied
slots in any suffix, and preserves them exactly for listeners it does
not remove. -/
theorem applyActions_removeOnly_facts (acts : List ListenerAction) :
    ∀ s : JSSet, removeOnlyActs acts →
      ((applyActions s acts).entries.length = s.entries.length)
      ∧ (∀ i l, (((applyActions s acts).entries.drop i).filterMap id).count l
            ≤ ((s.entries.drop i).filterMap id).count l)
      ∧ (∀ i l, avoidsListener acts l →
          (((applyActions s acts).entries.drop i).filterMap id).count l
            = ((s.entries.drop i).filterMap id).count l)
      ∧ (s.WF → (applyActions s acts).WF) := by
  induction acts with
  | nil => exact fun s _ => ⟨rfl, fun i l => le_refl _, fun i l _ => rfl, id⟩
  | cons a rest ih =>
      intro s hro
      obtain ⟨x, hax⟩ := hro a (List.mem_cons_self a rest)
      subst hax
      have hro2 : removeOnlyActs rest := fun b hb =>
        hro b (List.mem_cons_of_mem _ hb)
      have hstep : applyActions s (ListenerAction.unsubscribeAct x :: rest)
          = applyActions (s.del x) rest := rfl
      obtain ⟨ih1, ih2, ih3, ih4⟩ := ih (s.del x) hro2
      rw [hstep]
      refine ⟨?_, ?_, ?_, ?_⟩
      · rw [ih1]
        show (s.entries.map _).length = s.entries.length
        exact List.length_map s.entries _
      · intro i l
        refine le_trans (ih2 i l) ?_
        rw [del_entries_drop]
        exact (filterMap_map_del_sublist _ x).count_le l
      · intro i l hav
        have hxl : x ≠ l := by
          intro hxl
          exact hav (hxl ▸ List.mem_cons_self _ _)
        have hav2 : avoidsListener rest l := fun hm =>
          hav (List.mem_cons_of_mem _ hm)
        rw [ih3 i l hav2, del_entries_drop,
          filterMap_map_del_count_eq _ x l hxl]
      · intro hwf
        exact ih4 (hwf.sublist (filterMap_map_del_sublist s.entries x))

/-- The live dispatch iteration under remove-only re-entrant
behaviour: it terminates within `length + 1` cursor steps, preserves
the slot-list length and well-formedness, delivers to each listener at
most as often as it occupies slots in the unvisited suffix, and
exactly that often when no callback removes it. -/
theorem fanoutAux_removeOnly_facts (beh : Nat → List ListenerAction)
    (hro : removeOnly beh) (l : Nat) :
    ∀ fuel i (s : JSSet) (acc : List Nat), s.entries.length - i < fuel →
      ((fanoutAux beh fuel i s acc).finished = true)
      ∧ ((fanoutAux beh fuel i s acc).set.entries.length = s.entries.length)
      ∧ (s.WF → (fanoutAux beh fuel i s acc).set.WF)
      ∧ ((fanoutAux beh fuel i s acc).delivered.count l
          ≤ acc.count l + ((s.entries.drop i).filterMap id).count l)
      ∧ (neverRemoves beh l →
          (fanoutAux beh fuel i s acc).delivered.count l
            = acc.count l + ((s.entries.drop i).filterMap id).count l) := by
  intro fuel
  induction fuel with
  | zero => intro i s acc h; omega
  | succ fuel ih =>
      intro i s acc h
      cases hg : s.entries[i]? with
      | none =>
          have hlen : s.entries.length ≤ i := List.getElem?_eq_none_iff.mp hg
          have hdrop : s.entries.drop i = [] := List.drop_eq_nil_of_le hlen
          have hres : fanoutAux beh (fuel + 1) i s acc = ⟨s, acc.reverse, true⟩ := by
            simp [fanoutAux, hg]
          rw [hres, hdrop]
          refine ⟨rfl, rfl, id, ?_, fun _ => ?_⟩
          · simp [List.count_reverse]
          · simp [List.count_reverse]
      | some e =>
          obtain ⟨hi, hie⟩ := List.getElem?_eq_some.mp hg
          have hdropc : s.entries.drop i = e :: s.entries.drop (i + 1) := by
            rw [List.drop_eq_getElem_cons hi, hie]
          cases e with
          | none =>
              have hres : fanoutAux beh (fuel + 1) i s acc
                  = fanoutAux beh fuel (i + 1) s acc := by
                simp [fanoutAux, hg]
              rw [hres, hdropc, filterMap_id_cons_none]
              exact ih (i + 1) s acc (by omega)
          | some m =>
              have hres : fanoutAux beh (fuel + 1) i s acc
                  = fanoutAux beh fuel (i + 1) (applyActions s (beh m))
                      (m :: acc) := by
                simp [fanoutAux, hg]
              rw [hres]
              obtain ⟨ha1, ha2, ha3, ha4⟩ :=
                applyActions_removeOnly_facts (beh m) s (hro m)
              obtain ⟨ih1, ih2, ih3, ih4, ih5⟩ :=
                ih (i + 1) (applyActions s (beh m)) (m :: acc) (by rw [ha1]; omega)
              have hcnt : ((s.entries.drop i).filterMap id).count l
                  = ((s.entries.drop (i + 1)).filterMap id).count l
                    + if m = l then 1 else 0 := by
                rw [hdropc, filterMap_id_cons_some]
                by_cases hml : m = l
                · subst hml; rw [List.count_cons_self, if_pos rfl]
                · rw [List.count_cons_of_ne (fun hh => hml hh.symm), if_neg hml]
                  omega
              have hacc : (m :: acc).count l
                  = acc.count l + if m = l then 1 else 0 := by
                by_cases hml : m = l
                · subst hml; rw [List.count_cons_self, if_pos rfl]
                · rw [List.count_cons_of_ne (fun hh => hml hh.symm), if_neg hml]
                  omega
              refine ⟨ih1, by rw [ih2, ha1], fun hwf => ih3 (ha4 hwf), ?_, ?_⟩
              · have hle := ha2 (i + 1) l
                have := ih4
                omega
              · intro hnr
                rw [ih5 hnr, ha3 (i + 1) l (hnr m), hacc, hcnt]
                omega

/-- A single re-entrant registration or removal keeps the set
well-formed: `add` appends only an absent element, `del` only empties
a slot. -/
theorem wf_applyAction (s : JSSet) (a : ListenerAction) (hwf : s.WF) :
    (applyAction s a).WF := by
  cases a with
  | subscribeAct l =>
      show (s.add l).WF
      unfold JSSet.add
      by_cases hm : s.memB l = true
      · rw [if_pos hm]; exact hwf
      · rw [if_neg hm]
        show ((s.entries ++ [some l]).filterMap id).Nodup
        rw [List.filterMap_append]
        have hl : l ∉ s.entries.filterMap id := by
          intro hmem
          obtain ⟨a, ha, hal⟩ := List.mem_filterMap.mp hmem
          exact hm (List.elem_iff.mpr ((show a = some l from hal) ▸ ha))
        have hsingle : ([some l] : List (Option Nat)).filterMap id = [l] := rfl
        rw [hsingle, List.nodup_append]
        exact ⟨hwf, List.nodup_singleton l,
          fun a ha hb => hl (List.mem_singleton.mp hb ▸ ha)⟩
  | unsubscribeAct x =>
      show (s.del x).WF
      exact hwf.sublist (filterMap_map_del_sublist s.entries x)

/-- Any sequence of re-entrant registrations and removals keeps the
set well-formed. -/
theorem wf_applyActions (acts : List ListenerAction) :
    ∀ s : JSSet, s.WF → (applyActions s acts).WF := by
  induction acts with
  | nil => exact fun s h => h
  | cons a rest ih =>
      exact fun s h => ih (applyAction s a) (wf_applyAction s a h)

/-- Whatever the listeners' re-entrant behaviour — registrations,
removals, or both — and however far the fuel lets the dispatch loop
run, the listener set is still well-formed afterwards. -/
theorem wf_fanoutAux (beh : Nat → List ListenerAction) :
    ∀ fuel i (s : JSSet) (acc : List Nat), s.WF →
      (fanoutAux beh fuel i s acc).set.WF := by
  intro fuel
  induction fuel with
  | zero => intro i s acc h; exact h
  | succ fuel ih =>
      intro i s acc h
      cases hg : s.entries[i]? with
      | none =>
          have hres : fanoutAux beh (fuel + 1) i s acc
              = ⟨s, acc.reverse, true⟩ := by
            simp [fanoutAux, hg]
          rw [hres]; exact h
      | some e =>
          cases e with
          | none =>
              have hres : fanoutAux beh (fuel + 1) i s acc
                  = fanoutAux beh fuel (i + 1) s acc := by
                simp [fanoutAux, hg]
              rw [hres]; exact ih (i + 1) s acc h
          | some m =>
              have hres : fanoutAux beh (fuel + 1) i s acc
                  = fanoutAux beh fuel (i + 1) (applyActions s (beh m))
                      (m :: acc) := by
                simp [fanoutAux, hg]
              rw [hres]
              exact ih (i + 1) _ (m :: acc) (wf_applyActions (beh m) s h)

/-- C9 counterexample. With two registered listeners where the
first unsubscribes the second from within its callback, the second
listener is in the active set when the fan-out begins yet never
receives the event: the dispatch loop iterates over the live set, not
a snapshot. -/
theorem reentrant_unsubscribe_drops_pending :
    (cexSet.memB 1 = true)
    ∧ ((resolveAndDispatch cexResolver cexBeh 3 cexSet "u").delivered = [0])
    ∧ ((resolveAndDispatch cexResolver cexBeh 3 cexSet "u").finished = true) := by
  refine ⟨by decide, ?_, ?_⟩ <;> decide

/-- C9 amended. Calling subscribe or unsubscribe from within a
listener callback during fan-out never corrupts the active listener
set: whatever re-entrant registrations and removals the callbacks
perform, and however far the dispatch loop runs, they act as ordinary
set operations and the set remains well-formed.  Iteration, however,
is over the live set, not a snapshot: a listener unsubscribed by an
earlier callback before being visited does not receive the event (the
counterexample); when the re-entrant calls are unsubscriptions only,
the fan-out terminates, the slot count is preserved, and a listener
never removed during it receives the event exactly once if it was in
the set when fan-out began and never otherwise. -/
theorem reentrant_mutation_live_iteration
    (beh : Nat → List ListenerAction) (s : JSSet) (l : Nat) (hwf : s.WF) :
    (∀ fuel, (fanout beh fuel s).set.WF)
    ∧ (removeOnly beh →
        ((fanout beh (s.entries.length + 1) s).finished = true)
        ∧ ((fanout beh (s.entries.length + 1) s).set.entries.length
            = s.entries.length)
        ∧ ((fanout beh (s.entries.length + 1) s).delivered.count l
            ≤ if s.memB l then 1 else 0)
        ∧ (neverRemoves beh l →
            (fanout beh (s.entries.length + 1) s).delivered.count l
              = if s.memB l then 1 else 0)) := by
  constructor
  · intro fuel
    exact wf_fanoutAux beh fuel 0 s [] hwf
  · intro hro
    obtain ⟨h1, h2, h3, h4, h5⟩ :=
      fanoutAux_removeOnly_facts beh hro l (s.entries.length + 1) 0 s []
        (by omega)
    have hcount : ((s.entries.drop 0).filterMap id).count l
        = if s.memB l then 1 else 0 := by
      rw [List.drop_zero]
      exact count_filterMap_of_wf s hwf l
    rw [hcount] at h4 h5
    exact ⟨h1, h2, by simpa using h4, fun hnr => by simpa using h5 hnr⟩

/-- Witness for C9's amended theorem, at both arms: a behaviour that
re-entrantly subscribes a new listener still leaves the set
well-formed, and under the remove-only behaviour of the
counterexample the never-removed listener 0 receives the event
exactly once. -/
theorem reentrant_mutation_live_iteration_witness :
    ((fanout (fun m => if m == 0 then [ListenerAction.subscribeAct 5] else [])
        4 cexSet).set.WF)
    ∧ ((fanout cexBeh 3 cexSet).delivered.count 0 = 1) := by
  have hwfcex : cexSet.WF := by
    show (cexSet.entries.filterMap id).Nodup; decide
  constructor
  · exact (reentrant_mutation_live_iteration
      (fun m => if m == 0 then [ListenerAction.subscribeAct 5] else [])
      cexSet 0 hwfcex).1 4
  · have hro : removeOnly cexBeh := fun m a ha => by
      by_cases hm : m = 0
      · subst hm
        simp only [cexBeh] at ha
        simp at ha
        exact ⟨1, ha⟩
      · simp only [cexBeh] at ha
        simp [hm] at ha
    have hnr : neverRemoves cexBeh 0 := fun m => by
      by_cases hm : m = 0
      · subst hm
        intro hmem
        simp only [cexBeh] at hmem
        simp at hmem
      · intro hmem
        simp only [cexBeh] at hmem
        simp [hm] at hmem
    have h := (reentrant_mutation_live_iteration cexBeh cexSet 0 hwfcex).2 hro
    exact (h.2.2.2 hnr).trans (by decide)

/-- Witness for C8 at a concrete operation sequence that registers a
listener and unsubscribes it: zero listeners remain and a push event
issues no resolution call. -/
theorem subscription_iff_listeners_witness :
    (muxStep (muxRun initialMuxState
        [MuxOp.subscribeOp 0, MuxOp.unsubscribeOp 0]).1
      (.pushEventOp "warplink://w")).2 = [] :=
  (subscription_iff_listeners [MuxOp.subscribeOp 0, MuxOp.unsubscribeOp 0]).2.2
    (by decide) "warplink://w"

/-- C2. The cold-start URL is consumed by the first
`getInitialDeepLink` call: the native slot is cleared, a captured URL
is resolved through the gateway (`handleDeepLink`) before being
returned, no captured URL yields null, and a second call in the same
process lifetime yields null. -/
theorem getInitialDeepLink_one_shot
    (resolver : String → Except NativeRejection JSValue)
    (initialURL : Option String) :
    ((getInitialDeepLink resolver initialURL).2 = none)
    ∧ ((getInitialDeepLink resolver none).1 = .ok none)
    ∧ (∀ u, initialURL = some u →
        (getInitialDeepLink resolver initialURL).1 = handleDeepLinkOp resolver u)
    ∧ ((getInitialDeepLink resolver
        ((getInitialDeepLink resolver initialURL).2)).1 = .ok none) := by
  refine ⟨?_, rfl, ?_, ?_⟩
  · cases initialURL <;> rfl
  · intro u hu; subst hu; rfl
  · cases initialURL <;> rfl

/-- When no listener mutates the set re-entrantly, the dispatch loop
visits exactly the occupied slots, in order, and terminates. -/
theorem fanoutAux_passive_eq (fuel : Nat) :
    ∀ i (s : JSSet) (acc : List Nat), s.entries.length - i < fuel →
      fanoutAux passiveBeh fuel i s acc
        = ⟨s, acc.reverse ++ (s.entries.drop i).filterMap id, true⟩ := by
  induction fuel with
  | zero => intro i s acc h; omega
  | succ fuel ih =>
      intro i s acc h
      cases hg : s.entries[i]? with
      | none =>
          have hlen : s.entries.length ≤ i := List.getElem?_eq_none_iff.mp hg
          simp [fanoutAux, hg, List.drop_eq_nil_of_le hlen]
      | some e =>
          obtain ⟨hi, hie⟩ := List.getElem?_eq_some.mp hg
          have hdropc : s.entries.drop i = e :: s.entries.drop (i + 1) := by
            rw [List.drop_eq_getElem_cons hi, hie]
          cases e with
          | none =>
              simp only [fanoutAux, hg]
              rw [ih (i + 1) s acc (by omega), hdropc]
              simp
          | some m =>
              simp only [fanoutAux, hg]
              have hpassive : applyActions s (passiveBeh m) = s := rfl
              rw [hpassive, ih (i + 1) s (m :: acc) (by omega), hdropc]
              simp

/-- C1. A push event reaching the multiplexer issues the
resolution call on that URL; once the resolution settles with an
event (a resolved link or a typed error), that single event value is
fanned out to every listener in the set at settlement time, each
listener invoked exactly once, non-members not at all, and the set is
unchanged (listeners performing no re-entrant mutation). -/
theorem pushEvent_fanout_exactly_once
    (resolver : String → Except NativeRejection JSValue)
    (s : JSSet) (url : String) (hwf : s.WF)
    (hev : (eventOfSettlement (resolver url)).isSome = true) :
    ((muxStep ⟨s, true⟩ (.pushEventOp url)).2
        = [NativeCall.handleDeepLinkCall url])
    ∧ ((resolveAndDispatch resolver passiveBeh (s.entries.length + 1) s
          url).event = eventOfSettlement (resolver url))
    ∧ ((resolveAndDispatch resolver passiveBeh (s.entries.length + 1) s
          url).finished = true)
    ∧ (∀ l, (resolveAndDispatch resolver passiveBeh (s.entries.length + 1) s
          url).delivered.count l = if s.memB l then 1 else 0)
    ∧ ((resolveAndDispatch resolver passiveBeh (s.entries.length + 1) s
          url).set = s) := by
  have hfan : fanout passiveBeh (s.entries.length + 1) s
      = ⟨s, s.entries.filterMap id, true⟩ := by
    show fanoutAux passiveBeh (s.entries.length + 1) 0 s []
      = ⟨s, s.entries.filterMap id, true⟩
    rw [fanoutAux_passive_eq (s.entries.length + 1) 0 s [] (by omega)]
    simp
  refine ⟨rfl, ?_⟩
  cases hres : resolver url with
  | ok raw =>
      cases hdl : deserializeDeepLink raw with
      | none =>
          rw [hres] at hev
          simp [eventOfSettlement, hdl] at hev
      | some dl =>
          refine ⟨?_, ?_, fun l => ?_, ?_⟩
          · simp [resolveAndDispatch, hres, hdl, hfan, eventOfSettlement]
          · simp [resolveAndDispatch, hres, hdl, hfan]
          · have hdel : (resolveAndDispatch resolver passiveBeh
                (s.entries.length + 1) s url).delivered
                = s.entries.filterMap id := by
              simp [resolveAndDispatch, hres, hdl, hfan]
            rw [hdel]; exact count_filterMap_of_wf s hwf l
          · simp [resolveAndDispatch, hres, hdl, hfan]
  | error err =>
      refine ⟨?_, ?_, fun l => ?_, ?_⟩
      · simp [resolveAndDispatch, hres, hfan, eventOfSettlement]
      · simp [resolveAndDispatch, hres, hfan]
      · have hdel : (resolveAndDispatch resolver passiveBeh
            (s.entries.length + 1) s url).delivered
            = s.entries.filterMap id := by
          simp [resolveAndDispatch, hres, hfan]
        rw [hdel]; exact count_filterMap_of_wf s hwf l
      · simp [resolveAndDispatch, hres, hfan]

/-- Witness for C1: two passive listeners, a resolver rejecting with a
network error; both listeners receive the event exactly once and an
unregistered listener receives nothing. -/
theorem pushEvent_fanout_exactly_once_witness :
    ((resolveAndDispatch cexResolver passiveBeh 3 cexSet "u").delivered.count 0
        = 1)
    ∧ ((resolveAndDispatch cexResolver passiveBeh 3 cexSet "u").delivered.count 1
        = 1)
    ∧ ((resolveAndDispatch cexResolver passiveBeh 3 cexSet "u").delivered.count 7
        = 0) := by
  have h := pushEvent_fanout_exactly_once cexResolver cexSet "u"
    (by show (cexSet.entries.filterMap id).Nodup; decide) (by decide)
  exact ⟨(h.2.2.2.1 0).trans (by decide), (h.2.2.2.1 1).trans (by decide),
    (h.2.2.2.1 7).trans (by decide)⟩

/-- Witness for C2 with a captured URL and a resolver fulfilling with
an empty object: the first call resolves through the gateway, the
second call returns null. -/
theorem getInitialDeepLink_one_shot_witness :
    ((getInitialDeepLink (fun _ => Except.ok (JSValue.obj []))
        (some "warplink://p")).1
      = handleDeepLinkOp (fun _ => Except.ok (JSValue.obj [])) "warplink://p")
    ∧ ((getInitialDeepLink (fun _ => Except.ok (JSValue.obj []))
        ((getInitialDeepLink (fun _ => Except.ok (JSValue.obj []))
          (some "warplink://p")).2)).1 = .ok none) :=
  ⟨(getInitialDeepLink_one_shot _ _).2.2.1 "warplink://p" rfl,
   (getInitialDeepLink_one_shot _ _).2.2.2⟩

end WarpLinkSpec
